import Mathlib

/- A shallow embedding of the game engine of src/TetriX.py.
   Pygame rendering, fonts, sounds, particles and screen-shake values are
   presentation effects and are not modelled; random.shuffle is modelled by
   an oracle that supplies the contents of the piece bag for each refill.
   The write-only dictionary locked_positions (written in lock_piece and
   clear_lines, never read anywhere) is also omitted. -/

namespace TetriX

/- Screen and grid constants from the top of TetriX.py. -/
def SCREEN_WIDTH : Nat := 400

def SCREEN_HEIGHT : Nat := 800

def BLOCK_SIZE : Nat := 40

def GRID_WIDTH : Nat := SCREEN_WIDTH / BLOCK_SIZE

def GRID_HEIGHT : Nat := SCREEN_HEIGHT / BLOCK_SIZE

/- The seven piece labels, in the insertion order of the SHAPES dict. -/
inductive PieceKind
  | I
  | O
  | T
  | S
  | Z
  | J
  | L
deriving DecidableEq, Repr

def shapeKeys : List PieceKind := [.I, .O, .T, .S, .Z, .J, .L]

/- The shape matrices of the SHAPES dict (1 = occupied, 0 = empty). -/
def shapeOf : PieceKind → List (List Nat)
  | .I => [[1, 1, 1, 1]]
  | .O => [[1, 1], [1, 1]]
  | .T => [[0, 1, 0], [1, 1, 1]]
  | .S => [[0, 1, 1], [1, 1, 0]]
  | .Z => [[1, 1, 0], [0, 1, 1]]
  | .J => [[1, 0, 0], [1, 1, 1]]
  | .L => [[0, 0, 1], [1, 1, 1]]

/- The color ids of the SHAPES dict. -/
def colorOf : PieceKind → Nat
  | .I => 1
  | .O => 4
  | .T => 6
  | .S => 5
  | .Z => 7
  | .J => 2
  | .L => 3

structure Piece where
  pieceType : PieceKind
  shape : List (List Nat)
  color : Nat
  x : Int
  y : Int
deriving DecidableEq, Repr

/- Tetrimino.__init__ with an explicit piece type (every engine call site
   passes one; the random default argument is never used there). -/
def Tetrimino (t : PieceKind) : Piece :=
  let s := shapeOf t
  { pieceType := t
    shape := s
    color := colorOf t
    x := ((GRID_WIDTH / 2 : Nat) : Int) - (((s.getD 0 []).length / 2 : Nat) : Int)
    y := 0 }

/- Tetrimino.rotate builds zip(*self.shape[::-1]); Python's zip truncates
   every row to the length of the shortest one. -/
def shapeMinWidth : List (List Nat) → Nat
  | [] => 0
  | r :: rs => rs.foldl (fun a s => min a s.length) r.length

def rotate (m : List (List Nat)) : List (List Nat) :=
  match m with
  | [] => []
  | _ :: _ => (List.range (shapeMinWidth m)).map (fun c => m.reverse.map (fun r => r.getD c 0))

def rotateIter : Nat → List (List Nat) → List (List Nat)
  | 0, s => s
  | k + 1, s => rotate (rotateIter k s)

/- grid[new_y][new_x]: only consulted by _valid_position after it has
   checked 0 <= new_y and 0 <= new_x < GRID_WIDTH, where it agrees with
   Python indexing. -/
def gridGet (grid : List (List Nat)) (ny nx : Int) : Nat :=
  (grid.getD ny.toNat []).getD nx.toNat 0

/- The per-cell test of Tetrimino._valid_position for the occupied cell at
   offset (dy, dx) of the shape. -/
def posOK (grid : List (List Nat)) (x y : Int) (dy dx : Nat) : Bool :=
  let nx := x + (dx : Int)
  let ny := y + (dy : Int)
  !(decide (nx < 0) || decide ((GRID_WIDTH : Int) ≤ nx) ||
    decide ((GRID_HEIGHT : Int) ≤ ny) ||
    (decide (0 ≤ ny) && decide (gridGet grid ny nx ≠ 0)))

/- Tetrimino._valid_position. -/
def valid_position (x y : Int) (shape grid : List (List Nat)) : Bool :=
  (List.range shape.length).all fun dy =>
    (List.range (shape.getD dy []).length).all fun dx =>
      ((shape.getD dy []).getD dx 0 == 0) || posOK grid x y dy dx

/- get_ghost_y is advisory only and not needed by any claim. -/

/- GameState. -/
inductive GState
  | Menu
  | Playing
  | Paused
  | GameOver
deriving DecidableEq, Repr

/- The key presses handled by handle_events. -/
inductive Key
  | left
  | right
  | down
  | up
  | space
  | c
  | p
  | r
  | q
deriving DecidableEq, Repr

/- The engine-relevant fields of the TetrisGame object.  bagIdx counts how
   many times refill_bag has run, indexing the shuffle oracle. -/
structure Game where
  state : GState
  grid : List (List Nat)
  currentPiece : Option Piece
  nextPieces : List Piece
  score : Nat
  linesCleared : Nat
  level : Nat
  combo : Nat
  holdPiece : Option Piece
  canHold : Bool
  pieceBag : List PieceKind
  bagIdx : Nat
  stats : List (PieceKind × Nat)
  totalPieces : Nat
  dropSpeed : Int
  highScores : List Nat
deriving DecidableEq, Repr

def emptyRow : List Nat := List.replicate GRID_WIDTH 0

def emptyGrid : List (List Nat) := List.replicate GRID_HEIGHT emptyRow

def initStats : List (PieceKind × Nat) := shapeKeys.map (fun t => (t, 0))

/- self.stats[piece_type] += 1 on the stats dict. -/
def bumpStat (s : List (PieceKind × Nat)) (t : PieceKind) : List (PieceKind × Nat) :=
  s.map (fun e => if e.1 = t then (e.1, e.2 + 1) else e)

/- TetrisGame.calculate_drop_speed, as a function of the level field. -/
def calculate_drop_speed (level : Nat) : Int :=
  max 50 (500 - ((level : Int) - 1) * 50)

/- refill_bag: list(SHAPES.keys()) shuffled; the oracle bags gives the
   shuffled order produced by the bagIdx-th call to random.shuffle. -/
def refill_bag (bags : Nat → List PieceKind) (g : Game) : Game :=
  { g with pieceBag := bags g.bagIdx, bagIdx := g.bagIdx + 1 }

/- self.piece_bag.pop(): list.pop() takes the last element and raises
   IndexError (modelled as none) on an empty list. -/
def popBag (g : Game) : Option (PieceKind × Game) :=
  match g.pieceBag.getLast? with
  | some t => some (t, { g with pieceBag := g.pieceBag.dropLast })
  | none => none

/- get_next_piece. -/
def get_next_piece (bags : Nat → List PieceKind) (g : Game) :
    Option (PieceKind × Game) :=
  if g.pieceBag.isEmpty then popBag (refill_bag bags g) else popBag g

/- The while-loop of generate_next_pieces appends one piece per iteration
   and stops once the queue holds 3, so 3 iterations of fuel always
   suffice (the queue length never decreases inside the loop). -/
def fillNextAux (bags : Nat → List PieceKind) : Nat → Game → Option Game
  | 0, g => some g
  | k + 1, g =>
    if g.nextPieces.length < 3 then
      match get_next_piece bags g with
      | some (t, g1) =>
          fillNextAux bags k { g1 with nextPieces := g1.nextPieces ++ [Tetrimino t] }
      | none => none
    else some g

/- generate_next_pieces. -/
def generate_next_pieces (bags : Nat → List PieceKind) (g : Game) : Option Game :=
  match g.currentPiece with
  | some _ => fillNextAux bags 3 g
  | none =>
    match get_next_piece bags g with
    | some (t, g1) => fillNextAux bags 3 { g1 with currentPiece := some (Tetrimino t) }
    | none => none

/- reset_game (start_time and the particle list are presentation state). -/
def reset_game (bags : Nat → List PieceKind) (g : Game) : Option Game :=
  generate_next_pieces bags
    { g with grid := emptyGrid, currentPiece := none, nextPieces := [],
             score := 0, linesCleared := 0, level := 1, combo := 0,
             holdPiece := none, canHold := true, pieceBag := [],
             stats := initStats, totalPieces := 0 }

/- TetrisGame.move_piece. On failure the source mutates and then restores
   the exact previous x, y and shape, so the net effect is the unchanged
   game; sounds are presentation effects. -/
def move_piece (dx dy : Int) (rot : Bool) (g : Game) : Game × Bool :=
  match g.currentPiece with
  | none => (g, false)
  | some piece =>
    if g.state = GState.Playing then
      let shape2 := if rot then rotate piece.shape else piece.shape
      let x2 := piece.x + dx
      let y2 := piece.y + dy
      if valid_position x2 y2 shape2 g.grid then
        ({ g with currentPiece := some { piece with shape := shape2, x := x2, y := y2 } }, true)
      else (g, false)
    else (g, false)

/- Python list indexing used when lock_piece assigns grid[gy][gx]:
   a negative index within -n..-1 aliases from the end, anything else
   raises IndexError. -/
def pyIdx (n : Nat) (i : Int) : Option Nat :=
  if 0 ≤ i ∧ i < (n : Int) then some i.toNat
  else if -(n : Int) ≤ i ∧ i < 0 then some ((n : Int) + i).toNat
  else none

def pySetCell (grid : List (List Nat)) (gy gx : Int) (v : Nat) :
    Option (List (List Nat)) :=
  match pyIdx grid.length gy with
  | none => none
  | some iy =>
    match pyIdx (grid.getD iy []).length gx with
    | none => none
    | some ix => some (grid.set iy ((grid.getD iy []).set ix v))

/- The occupied offsets (dy, dx) of a shape, in the row-major order of the
   two enumerate loops of lock_piece. -/
def occupiedOffsets (shape : List (List Nat)) : List (Nat × Nat) :=
  (List.range shape.length).flatMap (fun dy =>
    ((List.range (shape.getD dy []).length).filter
        (fun dx => (shape.getD dy []).getD dx 0 != 0)).map (fun dx => (dy, dx)))

/- The grid-writing loop of lock_piece: the row index is guarded by
   0 <= grid_y < GRID_HEIGHT, the column index is used unguarded. -/
def lockCellsAux (color : Nat) (x y : Int) :
    List (Nat × Nat) → List (List Nat) → Option (List (List Nat))
  | [], grid => some grid
  | (dy, dx) :: rest, grid =>
    let gy := y + (dy : Int)
    let gx := x + (dx : Int)
    if 0 ≤ gy ∧ gy < (GRID_HEIGHT : Int) then
      match pySetCell grid gy gx color with
      | none => none
      | some grid2 => lockCellsAux color x y rest grid2
    else lockCellsAux color x y rest grid

def lockIntoGrid (piece : Piece) (grid : List (List Nat)) :
    Option (List (List Nat)) :=
  lockCellsAux piece.color piece.x piece.y (occupiedOffsets piece.shape) grid

/- all(self.grid[y][x] != 0 for x in range(GRID_WIDTH)). -/
def rowFull (row : List Nat) : Bool :=
  (List.range GRID_WIDTH).all fun x => row.getD x 0 != 0

def lines_to_clear (grid : List (List Nat)) : List Nat :=
  (List.range GRID_HEIGHT).filter (fun y => rowFull (grid.getD y []))

/- TetrisGame.clear_lines on the grid: for each y of the full-row indices
   in descending order, del grid[y] followed by inserting an empty row at
   the top; returns the new grid and len(lines_to_clear). -/
def clear_lines (grid : List (List Nat)) : List (List Nat) × Nat :=
  let ls := lines_to_clear grid
  (ls.reverse.foldl (fun gr y => emptyRow :: gr.eraseIdx y) grid, ls.length)

/- TetrisGame.calculate_score. -/
def line_scores (n : Nat) : Nat :=
  match n with
  | 1 => 100
  | 2 => 300
  | 3 => 500
  | 4 => 800
  | _ => 0

def calculate_score (n : Nat) (g : Game) : Game :=
  if n = 0 then { g with combo := 0 }
  else
    let base_score := line_scores n * g.level
    let combo_bonus := if 0 < g.combo then 50 * g.combo * g.level else 0
    let score2 := g.score + base_score + combo_bonus
    let lines2 := g.linesCleared + n
    let combo2 := g.combo + 1
    let new_level := lines2 / 10 + 1
    if g.level < new_level then
      { g with score := score2, linesCleared := lines2, combo := combo2,
               level := new_level, dropSpeed := calculate_drop_speed new_level }
    else
      { g with score := score2, linesCleared := lines2, combo := combo2 }

/- spawn_next_piece; next_pieces.pop(0) raises (none) on an empty queue.
   The can_hold / total_pieces updates precede the spawn-validity check in
   the source; the check reads only the grid and the new current piece, so
   folding those updates into both branches is the same function. -/
def spawn_next_piece (bags : Nat → List PieceKind) (g : Game) : Option Game :=
  match g.nextPieces with
  | [] => none
  | piece :: rest =>
    match generate_next_pieces bags
        { g with currentPiece := some piece, nextPieces := rest } with
    | none => none
    | some g1 =>
      if valid_position piece.x piece.y piece.shape g1.grid then
        some { g1 with canHold := true, totalPieces := g1.totalPieces + 1 }
      else
        some { g1 with canHold := true, totalPieces := g1.totalPieces + 1,
                       state := GState.GameOver }

/- lock_piece (particles and the drop sound are presentation effects). -/
def lock_piece (bags : Nat → List PieceKind) (g : Game) : Option Game :=
  match g.currentPiece with
  | none => some g
  | some piece =>
    match lockIntoGrid piece g.grid with
    | none => none
    | some grid1 =>
      let g1 := { g with grid := grid1, stats := bumpStat g.stats piece.pieceType }
      let cleared := clear_lines g1.grid
      let g2 := calculate_score cleared.2 { g1 with grid := cleared.1 }
      spawn_next_piece bags g2

/- The while-loop of hard_drop: each successful step moves the piece one
   row down and valid_position bounds occupied rows by GRID_HEIGHT, so
   GRID_HEIGHT + 4 iterations of fuel cover every piece the game builds. -/
def dropLoop : Nat → Game → Game × Nat
  | 0, g => (g, 0)
  | fuel + 1, g =>
    let r := move_piece 0 1 false g
    if r.2 then
      let r2 := dropLoop fuel r.1
      (r2.1, r2.2 + 1)
    else (g, 0)

/- TetrisGame.hard_drop.  Note: the source checks only current_piece, not
   the game state, before scoring the distance and locking. -/
def hard_drop (bags : Nat → List PieceKind) (g : Game) : Option Game :=
  match g.currentPiece with
  | none => some g
  | some _ =>
    let r := dropLoop (GRID_HEIGHT + 4) g
    lock_piece bags { r.1 with score := r.1.score + r.2 * 2 }

/- TetrisGame.hold_current_piece.  Note: the source checks only can_hold
   and current_piece, not the game state. -/
def hold_current_piece (bags : Nat → List PieceKind) (g : Game) : Option Game :=
  if g.canHold = false then some g
  else
    match g.currentPiece with
    | none => some g
    | some piece =>
      match g.holdPiece with
      | none =>
        match spawn_next_piece bags
            { g with holdPiece := some (Tetrimino piece.pieceType) } with
        | none => none
        | some g1 => some { g1 with canHold := false }
      | some hp =>
        some { g with currentPiece := some (Tetrimino hp.pieceType),
                      holdPiece := some (Tetrimino piece.pieceType),
                      canHold := false }

/- The KEYDOWN dispatch of handle_events; the returned Bool is the running
   flag of the main loop (false only for quit). -/
def handle_keydown (bags : Nat → List PieceKind) (k : Key) (g : Game) :
    Option (Game × Bool) :=
  match g.state with
  | GState.Menu =>
    if k = Key.space then
      (reset_game bags { g with state := GState.Playing }).map (fun g1 => (g1, true))
    else some (g, true)
  | GState.Playing =>
    match k with
    | Key.left => some ((move_piece (-1) 0 false g).1, true)
    | Key.right => some ((move_piece 1 0 false g).1, true)
    | Key.down =>
      let r := move_piece 0 1 false g
      some ((if r.2 then { r.1 with score := r.1.score + 1 } else r.1), true)
    | Key.up => some ((move_piece 0 0 true g).1, true)
    | Key.space => (hard_drop bags g).map (fun g1 => (g1, true))
    | Key.c => (hold_current_piece bags g).map (fun g1 => (g1, true))
    | Key.p => some ({ g with state := GState.Paused }, true)
    | _ => some (g, true)
  | GState.Paused =>
    if k = Key.p then some ({ g with state := GState.Playing }, true)
    else some (g, true)
  | GState.GameOver =>
    if k = Key.r then
      (reset_game bags { g with state := GState.Playing }).map (fun g1 => (g1, true))
    else if k = Key.q then some (g, false)
    else some (g, true)

/- list.sort(reverse=True) on the score list. -/
def insertDesc (a : Nat) : List Nat → List Nat
  | [] => [a]
  | b :: bs => if b ≤ a then a :: b :: bs else b :: insertDesc a bs

def sortDesc : List Nat → List Nat
  | [] => []
  | a :: as => insertDesc a (sortDesc as)

/- TetrisGame.save_high_score on the in-memory list; the file write mirrors
   this list and its failures are swallowed. -/
def save_high_score (g : Game) : Game :=
  { g with highScores := (sortDesc (g.highScores ++ [g.score])).take 10 }

/- The draw section of one iteration of TetrisGame.run, restricted to its
   effect on persistent state: while state == GAME_OVER every frame calls
   save_high_score before drawing the game-over screen. -/
def draw_frame (g : Game) : Game :=
  if g.state = GState.GameOver then save_high_score g else g

/- TetrisGame.__init__: state = MENU, reset_game, drop_speed = 500; the
   high-score file is absent, so load_high_scores gives []. -/
def initGame (bags : Nat → List PieceKind) : Option Game :=
  (reset_game bags
    { state := GState.Menu, grid := [], currentPiece := none, nextPieces := [],
      score := 0, linesCleared := 0, level := 1, combo := 0, holdPiece := none,
      canHold := true, pieceBag := [], bagIdx := 0, stats := initStats,
      totalPieces := 0, dropSpeed := 500, highScores := [] }).map
    (fun g => { g with dropSpeed := 500 })

/- A fixed shuffle oracle: every refill yields the keys in dict order. -/
def bags0 : Nat → List PieceKind := fun _ => shapeKeys

/- A paused mid-game state with a falling piece (reached by pressing P
   while playing). -/
def gPausedEx : Game :=
  { state := GState.Paused, grid := emptyGrid,
    currentPiece := some (Tetrimino .T),
    nextPieces := [Tetrimino .I, Tetrimino .O, Tetrimino .S],
    score := 0, linesCleared := 0, level := 1, combo := 0,
    holdPiece := none, canHold := true, pieceBag := [.J, .L, .Z],
    bagIdx := 1, stats := initStats, totalPieces := 1,
    dropSpeed := 500, highScores := [] }

/- A playing state with a falling piece, for the move_piece witness. -/
def gPlayEx : Game :=
  { state := GState.Playing, grid := emptyGrid,
    currentPiece := some (Tetrimino .T),
    nextPieces := [Tetrimino .I, Tetrimino .O, Tetrimino .S],
    score := 0, linesCleared := 0, level := 1, combo := 0,
    holdPiece := none, canHold := true, pieceBag := [.J, .L, .Z],
    bagIdx := 1, stats := initStats, totalPieces := 1,
    dropSpeed := 500, highScores := [] }

/- A playing state about to lock a single line at level 1, for the
   calculate_score witness. -/
def gScoreEx : Game :=
  { state := GState.Playing, grid := emptyGrid,
    currentPiece := none, nextPieces := [],
    score := 0, linesCleared := 0, level := 1, combo := 0,
    holdPiece := none, canHold := true, pieceBag := [],
    bagIdx := 0, stats := initStats, totalPieces := 0,
    dropSpeed := 500, highScores := [] }

/- A grid whose only occupied cell is at row 0, column 5: the I piece
   spawns at (x, y) = (3, 0) and overlaps it. -/
def blockedGrid : List (List Nat) :=
  [0, 0, 0, 0, 0, 1, 0, 0, 0, 0] :: List.replicate (GRID_HEIGHT - 1) emptyRow

/- A playing state whose next spawn (the I piece) collides at row 0. -/
def gBlocked : Game :=
  { state := GState.Playing, grid := blockedGrid,
    currentPiece := some (Tetrimino .T),
    nextPieces := [Tetrimino .I, Tetrimino .O, Tetrimino .S],
    score := 0, linesCleared := 0, level := 1, combo := 0,
    holdPiece := none, canHold := true, pieceBag := [.J, .L, .Z],
    bagIdx := 1, stats := initStats, totalPieces := 1,
    dropSpeed := 500, highScores := [] }

def gBlockedAfter : Game := (spawn_next_piece bags0 gBlocked).getD gBlocked

/- A grid whose two bottom rows (indices 18 and 19) are completely full
   and whose other rows are empty. -/
def bugGrid : List (List Nat) :=
  List.replicate (GRID_HEIGHT - 2) emptyRow ++
    [List.replicate GRID_WIDTH 1, List.replicate GRID_WIDTH 1]

/- A game-over state with final score 100 and an empty high-score list. -/
def gOverEx : Game :=
  { state := GState.GameOver, grid := emptyGrid,
    currentPiece := some (Tetrimino .T), nextPieces := [],
    score := 100, linesCleared := 3, level := 1, combo := 0,
    holdPiece := none, canHold := true, pieceBag := [],
    bagIdx := 1, stats := initStats, totalPieces := 4,
    dropSpeed := 500, highScores := [] }

/- The restart trace for the drop-speed claim: a fresh game, three locks
   clearing 4 + 4 + 2 lines (reaching level 2 and drop speed 450), game
   over, then the R key restarting. -/
def gStart : Game := (initGame bags0).getD gScoreEx

def gLevel2 : Game := calculate_score 2 (calculate_score 4 (calculate_score 4 gStart))

def gOverLevel2 : Game := { gLevel2 with state := GState.GameOver }

def gRestart : Game :=
  ((handle_keydown bags0 Key.r gOverLevel2).getD (gOverLevel2, true)).1

/- ### Collision-test characterisation -/

lemma posOK_eq_false_iff (grid : List (List Nat)) (x y : Int) (dy dx : Nat) :
    posOK grid x y dy dx = false ↔
      x + (dx : Int) < 0 ∨ (GRID_WIDTH : Int) ≤ x + (dx : Int) ∨
      (GRID_HEIGHT : Int) ≤ y + (dy : Int) ∨
      (0 ≤ y + (dy : Int) ∧ gridGet grid (y + (dy : Int)) (x + (dx : Int)) ≠ 0) := by
  simp only [posOK]
  simp
  constructor
  · intro h
    by_cases h1 : 0 ≤ x + (dx : Int)
    · by_cases h2 : x + (dx : Int) < (GRID_WIDTH : Int)
      · by_cases h3 : y + (dy : Int) < (GRID_HEIGHT : Int)
        · exact Or.inr (Or.inr (Or.inr (h h1 h2 h3)))
        · exact Or.inr (Or.inr (Or.inl (not_lt.mp h3)))
      · exact Or.inr (Or.inl (not_lt.mp h2))
    · exact Or.inl (not_le.mp h1)
  · intro h h1 h2 h3
    rcases h with h | h | h | h
    · exact absurd h1 (not_le.mpr h)
    · exact absurd h2 (not_lt.mpr h)
    · exact absurd h3 (not_lt.mpr h)
    · exact h

lemma posOK_eq_true_iff (grid : List (List Nat)) (x y : Int) (dy dx : Nat) :
    posOK grid x y dy dx = true ↔
      0 ≤ x + (dx : Int) ∧ x + (dx : Int) < (GRID_WIDTH : Int) ∧
      y + (dy : Int) < (GRID_HEIGHT : Int) ∧
      (0 ≤ y + (dy : Int) → gridGet grid (y + (dy : Int)) (x + (dx : Int)) = 0) := by
  rw [show (posOK grid x y dy dx = true) ↔ ¬(posOK grid x y dy dx = false) by
        simp]
  rw [posOK_eq_false_iff]
  push_neg
  tauto

lemma valid_position_eq_true_iff (x y : Int) (shape grid : List (List Nat)) :
    valid_position x y shape grid = true ↔
      ∀ dy, dy < shape.length → ∀ dx, dx < (shape.getD dy []).length →
        (shape.getD dy []).getD dx 0 ≠ 0 → posOK grid x y dy dx = true := by
  simp only [valid_position, List.all_eq_true, List.mem_range, Bool.or_eq_true,
    beq_iff_eq]
  constructor
  · intro h dy hdy dx hdx hne
    rcases h dy hdy dx hdx with h1 | h2
    · exact absurd h1 hne
    · exact h2
  · intro h dy hdy dx hdx
    by_cases hz : (shape.getD dy []).getD dx 0 = 0
    · exact Or.inl hz
    · exact Or.inr (h dy hdy dx hdx hz)

/-- C2: _valid_position returns false iff some occupied cell (dy, dx) of the
shape maps to a board coordinate that is outside [0, GRID_WIDTH)
horizontally, or has row at least GRID_HEIGHT, or has a nonnegative row and
lands on a non-empty board cell; occupied cells with a negative row are
never checked against the board contents. -/
theorem valid_position_false_iff (x y : Int) (shape grid : List (List Nat)) :
    valid_position x y shape grid = false ↔
      ∃ dy dx : Nat, dy < shape.length ∧ dx < (shape.getD dy []).length ∧
        (shape.getD dy []).getD dx 0 ≠ 0 ∧
        (x + (dx : Int) < 0 ∨ (GRID_WIDTH : Int) ≤ x + (dx : Int) ∨
         (GRID_HEIGHT : Int) ≤ y + (dy : Int) ∨
         (0 ≤ y + (dy : Int) ∧
           gridGet grid (y + (dy : Int)) (x + (dx : Int)) ≠ 0)) := by
  rw [show (valid_position x y shape grid = false) ↔
        ¬(valid_position x y shape grid = true) by simp]
  rw [valid_position_eq_true_iff]
  push_neg
  constructor
  · rintro ⟨dy, hdy, dx, hdx, hne, hok⟩
    exact ⟨dy, dx, hdy, hdx, hne, (posOK_eq_false_iff grid x y dy dx).mp
      (by simpa using hok)⟩
  · rintro ⟨dy, dx, hdy, hdx, hne, hbad⟩
    exact ⟨dy, hdy, dx, hdx, hne, by
      have := (posOK_eq_false_iff grid x y dy dx).mpr hbad
      simp [this]⟩

/- ### Rotation -/

/-- C9: applying Tetrimino.rotate four times to any reachable shape matrix
of any of the 7 piece types (the base shape rotated k times, k < 4) yields
the original shape matrix. -/
theorem rotate_four_times_id (t : PieceKind) (k : Fin 4) :
    rotateIter 4 (rotateIter k.val (shapeOf t)) = rotateIter k.val (shapeOf t) := by
  cases t <;> (revert k; decide)

/- ### Line clearing -/

/-- C1: (code bug) on the board whose rows 18 and 19 are the full rows,
clear_lines reports 2 cleared lines but removes rows 19 and 17 instead:
the descending deletion loop inserts an empty row at the top inside the
loop, shifting the remaining indices, so the resulting board still has a
completely full bottom row instead of being empty. -/
theorem clear_lines_deletes_wrong_rows :
    (clear_lines bugGrid).2 = 2 ∧
    rowFull ((clear_lines bugGrid).1.getD 19 []) = true ∧
    (clear_lines bugGrid).1 ≠ List.replicate GRID_HEIGHT emptyRow := by
  decide

/- ### Scoring -/

/-- C3: for a lock clearing n lines (n ≤ 4) from a state satisfying the
level invariant level = linesCleared / 10 + 1 maintained by the engine:
n = 0 only resets the combo; n > 0 adds the line score times the level
plus the combo bonus, adds n to linesCleared, increments the combo, and
afterwards level = linesCleared / 10 + 1 again. -/
theorem calculate_score_correct (g : Game) (n : Nat) (hn : n ≤ 4)
    (hl : g.level = g.linesCleared / 10 + 1) :
    (n = 0 → calculate_score n g = { g with combo := 0 }) ∧
    (0 < n →
      (calculate_score n g).score =
        g.score + line_scores n * g.level +
          (if 0 < g.combo then 50 * g.combo * g.level else 0) ∧
      (calculate_score n g).linesCleared = g.linesCleared + n ∧
      (calculate_score n g).combo = g.combo + 1 ∧
      (calculate_score n g).level = (calculate_score n g).linesCleared / 10 + 1) := by
  constructor
  · intro h0
    subst h0
    simp [calculate_score]
  · intro hpos
    have hne : ¬ n = 0 := Nat.pos_iff_ne_zero.mp hpos
    by_cases hlt : g.level < (g.linesCleared + n) / 10 + 1
    · simp [calculate_score, hne, hlt]
    · simp [calculate_score, hne, hlt]
      omega

/-- Witness for C3: clearing one line at level 1 with no combo adds
exactly 100 points. -/
theorem calculate_score_correct_witness :
    (calculate_score 1 gScoreEx).score =
      gScoreEx.score + line_scores 1 * gScoreEx.level +
        (if 0 < gScoreEx.combo then 50 * gScoreEx.combo * gScoreEx.level else 0) ∧
    (calculate_score 1 gScoreEx).linesCleared = gScoreEx.linesCleared + 1 ∧
    (calculate_score 1 gScoreEx).combo = gScoreEx.combo + 1 ∧
    (calculate_score 1 gScoreEx).level =
      (calculate_score 1 gScoreEx).linesCleared / 10 + 1 :=
  (calculate_score_correct gScoreEx 1 (by decide) (by decide)).2 (by decide)

/- ### Validated movement -/

/-- C4: in the Playing phase with a falling piece, move_piece validates the
tentatively translated and/or rotated piece: if invalid it returns false
with the whole game state exactly as before, if valid it commits the new
shape and origin and returns true. -/
theorem move_piece_commits_or_reverts (g : Game) (piece : Piece)
    (dx dy : Int) (rot : Bool) (hs : g.state = GState.Playing)
    (hp : g.currentPiece = some piece) :
    (valid_position (piece.x + dx) (piece.y + dy)
        (if rot then rotate piece.shape else piece.shape) g.grid = false →
      move_piece dx dy rot g = (g, false)) ∧
    (valid_position (piece.x + dx) (piece.y + dy)
        (if rot then rotate piece.shape else piece.shape) g.grid = true →
      move_piece dx dy rot g =
        ({ g with currentPiece := some { piece with
              shape := if rot then rotate piece.shape else piece.shape,
              x := piece.x + dx, y := piece.y + dy } }, true)) := by
  constructor <;> intro hv <;> simp [move_piece, hp, hs, hv]

/-- Witness for C4: a valid left move from the playing state commits the
new origin and returns true. -/
theorem move_piece_commits_or_reverts_witness :
    move_piece (-1) 0 false gPlayEx =
      ({ gPlayEx with currentPiece := some { Tetrimino .T with
            x := (Tetrimino .T).x + (-1), y := (Tetrimino .T).y + 0 } }, true) :=
  (move_piece_commits_or_reverts gPlayEx (Tetrimino .T) (-1) 0 false rfl rfl).2
    (by decide)

/- ### Phase gating -/

lemma move_piece_not_playing {g : Game} (h : g.state ≠ GState.Playing)
    (dx dy : Int) (rot : Bool) : move_piece dx dy rot g = (g, false) := by
  cases hp : g.currentPiece with
  | none => simp [move_piece, hp]
  | some piece => simp [move_piece, hp, h]

lemma handle_keydown_paused (bags : Nat → List PieceKind) {g : Game}
    (h : g.state = GState.Paused) {k : Key} (hk : k ≠ Key.p) :
    handle_keydown bags k g = some (g, true) := by
  simp [handle_keydown, h, hk]

lemma handle_keydown_game_over (bags : Nat → List PieceKind) {g : Game}
    (h : g.state = GState.GameOver) {k : Key} (hk1 : k ≠ Key.r)
    (hk2 : k ≠ Key.q) :
    handle_keydown bags k g = some (g, true) := by
  simp [handle_keydown, h, hk1, hk2]

/-- C5 counterexample: in the paused state gPausedEx (phase Paused, a
falling piece present, hold slot empty) neither hard_drop nor hold is a
no-op: hard_drop locks the falling piece into the board, changing the
grid, and hold_current_piece fills the hold slot. -/
theorem hard_drop_and_hold_not_noops_outside_playing :
    ((hard_drop bags0 gPausedEx).getD gPausedEx).grid ≠ gPausedEx.grid ∧
    ((hold_current_piece bags0 gPausedEx).getD gPausedEx).holdPiece ≠
      gPausedEx.holdPiece := by
  decide

/-- C5 (amended): in every non-Playing phase (Menu, Paused or GameOver)
move_piece is a no-op returning false, while hard_drop and hold check only
the falling piece and can-hold flag, not the phase; but the key handler
dispatches the move, rotate, soft-drop, hard-drop and hold intents only
while Playing, so in the Paused and GameOver phases those key presses
leave the whole game unchanged (in Menu the space key is the explicit
start-game transition). -/
theorem non_playing_intents_are_noops (bags : Nat → List PieceKind)
    (g : Game) (h : g.state ≠ GState.Playing) :
    (∀ dx dy : Int, ∀ rot : Bool, move_piece dx dy rot g = (g, false)) ∧
    (g.state = GState.Paused ∨ g.state = GState.GameOver →
      ∀ k ∈ [Key.left, Key.right, Key.down, Key.up, Key.space, Key.c],
        handle_keydown bags k g = some (g, true)) := by
  refine ⟨fun dx dy rot => move_piece_not_playing h dx dy rot, ?_⟩
  intro hpg k hk
  rcases hpg with h2 | h2
  · fin_cases hk <;> exact handle_keydown_paused bags h2 (by decide)
  · fin_cases hk <;> exact handle_keydown_game_over bags h2 (by decide) (by decide)

/-- Witness for C5 (amended) at the concrete paused state. -/
theorem non_playing_intents_are_noops_witness :
    move_piece 0 1 false gPausedEx = (gPausedEx, false) ∧
    handle_keydown bags0 Key.space gPausedEx = some (gPausedEx, true) :=
  ⟨(non_playing_intents_are_noops bags0 gPausedEx (by decide)).1 0 1 false,
   (non_playing_intents_are_noops bags0 gPausedEx (by decide)).2 (Or.inl rfl)
     Key.space (by decide)⟩

/- ### Preservation through piece generation -/

lemma popBag_preserves {g : Game} {t : PieceKind} {g1 : Game}
    (h : popBag g = some (t, g1)) :
    g1.grid = g.grid ∧ g1.state = g.state ∧ g1.currentPiece = g.currentPiece := by
  unfold popBag at h
  cases hL : g.pieceBag.getLast? with
  | none => rw [hL] at h; exact absurd h (by simp)
  | some t2 =>
    rw [hL] at h
    simp only [Option.some.injEq, Prod.mk.injEq] at h
    rw [← h.2]
    exact ⟨rfl, rfl, rfl⟩

lemma get_next_piece_preserves {bags : Nat → List PieceKind} {g : Game}
    {t : PieceKind} {g1 : Game} (h : get_next_piece bags g = some (t, g1)) :
    g1.grid = g.grid ∧ g1.state = g.state ∧ g1.currentPiece = g.currentPiece := by
  unfold get_next_piece at h
  by_cases hb : g.pieceBag.isEmpty = true
  · rw [if_pos hb] at h
    have h2 := popBag_preserves h
    exact ⟨h2.1, h2.2.1, h2.2.2⟩
  · rw [if_neg hb] at h
    exact popBag_preserves h

lemma fillNextAux_preserves (bags : Nat → List PieceKind) :
    ∀ (k : Nat) (g g1 : Game), fillNextAux bags k g = some g1 →
      g1.grid = g.grid ∧ g1.state = g.state ∧
      g1.currentPiece = g.currentPiece := by
  intro k
  induction k with
  | zero =>
    intro g g1 h
    simp only [fillNextAux, Option.some.injEq] at h
    rw [← h]
    exact ⟨rfl, rfl, rfl⟩
  | succ k ih =>
    intro g g1 h
    unfold fillNextAux at h
    by_cases hl : g.nextPieces.length < 3
    · rw [if_pos hl] at h
      cases hg : get_next_piece bags g with
      | none => rw [hg] at h; exact absurd h (by simp)
      | some tg =>
        obtain ⟨t, g2⟩ := tg
        rw [hg] at h
        have h1 := ih _ _ h
        have h2 := get_next_piece_preserves hg
        exact ⟨h1.1.trans h2.1, h1.2.1.trans h2.2.1, h1.2.2.trans h2.2.2⟩
    · rw [if_neg hl] at h
      simp only [Option.some.injEq] at h
      rw [← h]
      exact ⟨rfl, rfl, rfl⟩

lemma generate_next_pieces_preserves {bags : Nat → List PieceKind}
    {g g1 : Game} {piece : Piece} (hc : g.currentPiece = some piece)
    (h : generate_next_pieces bags g = some g1) :
    g1.grid = g.grid ∧ g1.state = g.state ∧ g1.currentPiece = some piece := by
  unfold generate_next_pieces at h
  rw [hc] at h
  have h2 := fillNextAux_preserves bags 3 g g1 h
  exact ⟨h2.1, h2.2.1, h2.2.2.trans hc⟩

/- ### Game over on blocked spawn -/

/-- C6: when the next piece to spawn collides with existing board content,
spawn_next_piece puts the engine in the GameOver phase, and in that phase
move_piece is a no-op and the move, rotate, soft-drop and hard-drop keys
leave the game unchanged (only R restarts and Q quits). -/
theorem spawn_collision_game_over (bags : Nat → List PieceKind)
    (g g1 : Game) (piece : Piece)
    (hq : g.nextPieces.head? = some piece)
    (hs : spawn_next_piece bags g = some g1)
    (hv : valid_position piece.x piece.y piece.shape g.grid = false) :
    g1.state = GState.GameOver ∧
    (∀ dx dy : Int, ∀ rot : Bool, move_piece dx dy rot g1 = (g1, false)) ∧
    (∀ k ∈ [Key.left, Key.right, Key.down, Key.up, Key.space],
      handle_keydown bags k g1 = some (g1, true)) := by
  have hgo : g1.state = GState.GameOver := by
    unfold spawn_next_piece at hs
    split at hs
    · exact absurd hs (by simp)
    · rename_i p0 rest hnp
      obtain rfl : piece = p0 := by
        rw [hnp] at hq
        simp only [List.head?_cons, Option.some.injEq] at hq
        exact hq.symm
      split at hs
      · exact absurd hs (by simp)
      · rename_i g2 hgen
        have hpres := generate_next_pieces_preserves rfl hgen
        have hv2 : valid_position piece.x piece.y piece.shape g2.grid = false := by
          rw [hpres.1]
          exact hv
        rw [hv2] at hs
        simp only [Bool.false_eq_true, if_false, Option.some.injEq] at hs
        rw [← hs]
  refine ⟨hgo, fun dx dy rot =>
    move_piece_not_playing (by rw [hgo]; simp) dx dy rot, ?_⟩
  intro k hk
  fin_cases hk <;> exact handle_keydown_game_over bags hgo (by decide) (by decide)

/-- Witness for C6 at the concrete blocked spawn state. -/
theorem spawn_collision_game_over_witness :
    gBlockedAfter.state = GState.GameOver ∧
    move_piece 0 1 false gBlockedAfter = (gBlockedAfter, false) ∧
    handle_keydown bags0 Key.left gBlockedAfter = some (gBlockedAfter, true) := by
  have h := spawn_collision_game_over bags0 gBlocked gBlockedAfter (Tetrimino .I)
    rfl (by decide) (by decide)
  exact ⟨h.1, h.2.1 0 1 false, h.2.2 Key.left (by decide)⟩

/- ### Drop interval across a restart -/

/-- C7: (code bug) the restart trace: a fresh game reaches level 2 after
three locks clearing 4 + 4 + 2 lines (drop speed 450), the game ends, and
the R key restarts; reset_game never touches drop_speed, so the new game
runs at level 1 with a drop interval of 450 instead of
calculate_drop_speed 1 = 500. -/
theorem drop_speed_not_reset_on_restart :
    gLevel2.level = 2 ∧ gLevel2.dropSpeed = 450 ∧
    gRestart.state = GState.Playing ∧ gRestart.level = 1 ∧
    gRestart.dropSpeed = 450 ∧ calculate_drop_speed 1 = 500 := by
  decide

/- ### High-score persistence -/

/-- C8: (code bug) the run loop's draw section calls save_high_score on
every frame for which state == GAME_OVER, so the final score 100 is
appended (and the file rewritten) once per frame instead of exactly once:
after two frames of the game-over screen the list is [100, 100]. -/
theorem high_score_saved_every_frame :
    (draw_frame gOverEx).highScores = [100] ∧
    (draw_frame (draw_frame gOverEx)).highScores = [100, 100] := by
  decide

/- ### Locking stays in bounds -/

lemma mem_occupiedOffsets {shape : List (List Nat)} {dy dx : Nat} :
    (dy, dx) ∈ occupiedOffsets shape ↔
      dy < shape.length ∧ dx < (shape.getD dy []).length ∧
      (shape.getD dy []).getD dx 0 ≠ 0 := by
  simp only [occupiedOffsets, List.mem_flatMap, List.mem_map, List.mem_filter,
    List.mem_range, bne_iff_ne, ne_eq, Prod.mk.injEq]
  constructor
  · rintro ⟨dy2, hdy2, dx2, ⟨hdx2, hne⟩, rfl, rfl⟩
    exact ⟨hdy2, hdx2, hne⟩
  · rintro ⟨h1, h2, h3⟩
    exact ⟨dy, h1, dx, ⟨h2, h3⟩, rfl, rfl⟩

lemma valid_position_offsets {x y : Int} {shape grid : List (List Nat)}
    (hv : valid_position x y shape grid = true) :
    ∀ q ∈ occupiedOffsets shape,
      0 ≤ x + (q.2 : Int) ∧ x + (q.2 : Int) < (GRID_WIDTH : Int) ∧
      y + (q.1 : Int) < (GRID_HEIGHT : Int) := by
  intro q hq
  obtain ⟨dy, dx⟩ := q
  obtain ⟨h1, h2, h3⟩ := mem_occupiedOffsets.mp hq
  have h4 := (valid_position_eq_true_iff x y shape grid).mp hv dy h1 dx h2 h3
  have h5 := (posOK_eq_true_iff grid x y dy dx).mp h4
  exact ⟨h5.1, h5.2.1, h5.2.2.1⟩

lemma pyIdx_in_range {n : Nat} {i : Int} (h0 : 0 ≤ i) (h1 : i < (n : Int)) :
    pyIdx n i = some i.toNat := by
  unfold pyIdx
  rw [if_pos ⟨h0, h1⟩]

lemma lockCellsAux_isSome (color : Nat) (x y : Int) :
    ∀ (offs : List (Nat × Nat)) (grid : List (List Nat)),
      grid.length = GRID_HEIGHT →
      (∀ r ∈ grid, r.length = GRID_WIDTH) →
      (∀ q ∈ offs, 0 ≤ x + (q.2 : Int) ∧ x + (q.2 : Int) < (GRID_WIDTH : Int) ∧
          y + (q.1 : Int) < (GRID_HEIGHT : Int)) →
      (lockCellsAux color x y offs grid).isSome = true := by
  intro offs
  induction offs with
  | nil =>
    intro grid _ _ _
    simp [lockCellsAux]
  | cons q rest ih =>
    intro grid hH hW hb
    obtain ⟨dy, dx⟩ := q
    have hbq := hb (dy, dx) (List.mem_cons_self _ _)
    have hrest : ∀ q ∈ rest, 0 ≤ x + (q.2 : Int) ∧
        x + (q.2 : Int) < (GRID_WIDTH : Int) ∧
        y + (q.1 : Int) < (GRID_HEIGHT : Int) :=
      fun q hq => hb q (List.mem_cons_of_mem _ hq)
    by_cases hgy : 0 ≤ y + (dy : Int) ∧ y + (dy : Int) < (GRID_HEIGHT : Int)
    · have hyn : (y + (dy : Int)).toNat < grid.length := by
        rw [hH]
        omega
      have hrowmem : grid.getD (y + (dy : Int)).toNat [] ∈ grid := by
        rw [List.getD_eq_getElem _ _ hyn]
        exact List.getElem_mem hyn
      have hrowlen : (grid.getD (y + (dy : Int)).toNat []).length = GRID_WIDTH :=
        hW _ hrowmem
      have h1 : pyIdx grid.length (y + (dy : Int)) = some (y + (dy : Int)).toNat :=
        pyIdx_in_range hgy.1 (by rw [hH]; exact_mod_cast hgy.2)
      have h2 : pyIdx (grid.getD (y + (dy : Int)).toNat []).length (x + (dx : Int)) =
          some (x + (dx : Int)).toNat :=
        pyIdx_in_range hbq.1 (by rw [hrowlen]; exact_mod_cast hbq.2.1)
      simp only [lockCellsAux]
      rw [if_pos hgy]
      simp only [pySetCell, h1, h2]
      apply ih
      · rw [List.length_set]
        exact hH
      · intro r hr
        rcases List.mem_or_eq_of_mem_set hr with hr2 | hr2
        · exact hW r hr2
        · rw [hr2, List.length_set]
          exact hrowlen
      · exact hrest
    · simp only [lockCellsAux]
      rw [if_neg hgy]
      exact ih grid hH hW hrest

/-- C10: for a falling piece whose position is valid on the current grid,
lock_piece only writes cells with row in [0, GRID_HEIGHT) and column in
[0, GRID_WIDTH): every occupied offset lands in horizontal bounds and
above row GRID_HEIGHT, so the unguarded Python column index of the
grid-writing loop never goes out of range (no IndexError). -/
theorem lock_piece_writes_in_bounds (piece : Piece) (grid : List (List Nat))
    (hH : grid.length = GRID_HEIGHT)
    (hW : ∀ r ∈ grid, r.length = GRID_WIDTH)
    (hv : valid_position piece.x piece.y piece.shape grid = true) :
    (lockIntoGrid piece grid).isSome = true ∧
    ∀ q ∈ occupiedOffsets piece.shape,
      0 ≤ piece.x + (q.2 : Int) ∧ piece.x + (q.2 : Int) < (GRID_WIDTH : Int) ∧
      piece.y + (q.1 : Int) < (GRID_HEIGHT : Int) := by
  have hb := valid_position_offsets hv
  exact ⟨lockCellsAux_isSome piece.color piece.x piece.y _ grid hH hW hb, hb⟩

/-- Witness for C10: locking the freshly spawned T piece on the empty board
succeeds without any out-of-range access. -/
theorem lock_piece_writes_in_bounds_witness :
    (lockIntoGrid (Tetrimino .T) emptyGrid).isSome = true :=
  (lock_piece_writes_in_bounds (Tetrimino .T) emptyGrid (by decide) (by decide)
    (by decide)).1

end TetriX
